import Mathlib

/-!
A verification development for the Station-Manager `cat` package: a shallow
embedding of the CAT (Computer-Aided Transceiver) service core — the state
matcher, marker extractor, status publication with eviction, command
formatting/validation, and the service lifecycle — together with theorems
settling the specification's claims against the code.

Go strings are modelled as lists of characters (`GoStr`); all concrete
inputs in this development are ASCII, where Go's byte indexing coincides
with character indexing.  Go maps are modelled as association lists whose
assignment overwrites an existing key.  Go channels are modelled as a
capacity plus a FIFO buffer; the non-blocking `select` statements of the
source are modelled deterministically, which is exact whenever the shutdown
channel is not closed (the regime of every claim below).  Loops of the
source that have no structural termination measure take an explicit fuel
argument; a `none` result means the fuel was exhausted, and every theorem
shows a `some` result, i.e. the loop actually returns within the stated
number of iterations.
-/

/-- Go string, as a list of characters (exact for ASCII data). -/
abbrev GoStr := List Char

/-- Convenience conversion from a Lean string literal. -/
def str (s : String) : GoStr := s.toList

/-- The characters Go's `unicode.IsSpace` accepts in the ASCII range:
space, tab, newline, vertical tab, form feed, carriage return. -/
def goIsSpace (c : Char) : Bool :=
  c == ' ' || c == '\t' || c == '\n' || c == '\r' ||
  c == Char.ofNat 11 || c == Char.ofNat 12

/-- Drop leading whitespace (the left half of Go's `strings.TrimSpace`). -/
def goTrimLeft : GoStr → GoStr
  | [] => []
  | c :: rest => if goIsSpace c then goTrimLeft rest else c :: rest

/-- Go's `strings.TrimSpace` on ASCII data: drop leading and trailing
whitespace. -/
def goTrimSpace (s : GoStr) : GoStr :=
  (goTrimLeft (goTrimLeft s).reverse).reverse

/-- Upper-case one ASCII character, as Go's `strings.ToUpper` and
`bytes.ToUpper` do on ASCII input. -/
def goUpChar (c : Char) : Char :=
  if 'a' ≤ c ∧ c ≤ 'z' then Char.ofNat (c.toNat - 32) else c

/-- Go's `strings.ToUpper` / `bytes.ToUpper` on ASCII data. -/
def goToUpper (s : GoStr) : GoStr := s.map goUpChar

/-- Auxiliary recursion for `goCount`, fuelled by the length of the
scanned string so the kernel can evaluate it. -/
def goCountAux (pat : GoStr) : Nat → GoStr → Nat
  | 0, _ => 0
  | _, [] => 0
  | fuel + 1, c :: rest =>
    if pat.isPrefixOf (c :: rest) then
      1 + goCountAux pat fuel (List.drop (pat.length - 1) rest)
    else
      goCountAux pat fuel rest

/-- Go's `strings.Count`: the number of non-overlapping instances of `pat`
in `s` (for an empty pattern, Go returns the rune count plus one). -/
def goCount (s pat : GoStr) : Nat :=
  if pat = [] then s.length + 1 else goCountAux pat s.length s

/-- Diagnostic text Go's `fmt.Sprintf` emits for a missing argument. -/
def missingArgMark : GoStr := str "%!s(MISSING)"

/-- Diagnostic text standing for Go's `fmt.Sprintf` trailing
`%!(EXTRA ...)` report when arguments are left over. -/
def extraArgsMark : GoStr := str "%!(EXTRA)"

/-- Go's `fmt.Sprintf` restricted to templates whose only verbs are `%s`
(the shape every configured command template has, and the only shape that
survives `validateCommandFormat`): each `%s` consumes the next parameter in
order.  The mismatch branches model Go's `%!s(MISSING)` / `%!(EXTRA ...)`
diagnostics and are unreachable after validation. -/
def goSprintfS : GoStr → List GoStr → GoStr
  | [], [] => []
  | [], _ :: _ => extraArgsMark
  | '%' :: 's' :: rest, p :: ps => p ++ goSprintfS rest ps
  | '%' :: 's' :: rest, [] => missingArgMark ++ goSprintfS rest []
  | c :: rest, ps => c :: goSprintfS rest ps

/-- Assignment `m[k] = v` on a Go map modelled as an association list:
overwrite the entry for `k` if present, otherwise append it. -/
def assocSet {α : Type} (t : List (GoStr × α)) (k : GoStr) (v : α) :
    List (GoStr × α) :=
  if t.any (fun p => p.1 == k) then
    t.map (fun p => if p.1 == k then (k, v) else p)
  else t ++ [(k, v)]

/-- Lookup `m[k]` on a Go map modelled as an association list. -/
def assocGet {α : Type} (t : List (GoStr × α)) (k : GoStr) : Option α :=
  (t.find? (fun p => p.1 == k)).map (fun p => p.2)

/-- One `ValueMapping` entry of a marker (`types.ValueMapping`). -/
structure ValueMapping where
  key : GoStr
  value : GoStr
deriving DecidableEq

/-- A byte-range extraction rule of a state definition (`types.Marker`).
`index` and `length` are Go `int`s, hence `Int`. -/
structure Marker where
  index : Int
  length : Int
  tag : GoStr
  valueMappings : List ValueMapping
deriving DecidableEq

/-- `types.CatState`: a state definition (prefix + markers); the same Go
struct doubles as the matched line, carrying the payload in `data`.
The Go field `Prefix` is called `pfx` here because `prefix` is a reserved
word in Lean. -/
structure CatState where
  pfx : GoStr
  markers : List Marker
  data : GoStr
deriving DecidableEq

/-- `types.CatStatus`: the tag → value snapshot map. -/
abbrev CatStatus := List (GoStr × GoStr)

/-- `types.CatCommand`: a named command template. -/
structure CatCommand where
  name : GoStr
  cmd : GoStr
deriving DecidableEq

/-- The per-marker body of the extraction loop of `lineProcessor`
(processor.go): skip an out-of-range index, clamp the end to the line
length, skip an empty slice, then store either the raw slice or the first
matching value mapping (empty string when none matches) under the tag. -/
def applyMarker (data : GoStr) (status : CatStatus) (m : Marker) : CatStatus :=
  if m.index < 0 ∨ m.index ≥ (data.length : Int) then status
  else
    let e :=
      if m.index + m.length > (data.length : Int) then (data.length : Int)
      else m.index + m.length
    if m.index ≥ e then status
    else
      let slice := (data.drop m.index.toNat).take (e - m.index).toNat
      if m.valueMappings.isEmpty then assocSet status m.tag slice
      else
        let mapped :=
          match m.valueMappings.find? (fun vm => vm.key == slice) with
          | some vm => vm.value
          | none => []
        assocSet status m.tag mapped

/-- The whole marker-extraction pass of `lineProcessor`: fold
`applyMarker` over the markers, starting from the empty snapshot. -/
def extractStatus (data : GoStr) (markers : List Marker) : CatStatus :=
  markers.foldl (applyMarker data) []

/-- One marker's contribution as the specification words it: no entry when
`index` is outside `[0, len(data))`; `end = min(index+length, len(data))`;
no entry when `index ≥ end`; otherwise the slice `data[index:end]`, stored
raw when the marker has no value mappings, else the first matching mapped
value or the empty string. -/
def markerEvalSpec (data : GoStr) (m : Marker) : Option GoStr :=
  if m.index < 0 ∨ m.index ≥ (data.length : Int) then none
  else
    let e := min (m.index + m.length) (data.length : Int)
    if m.index ≥ e then none
    else
      let slice := (data.drop m.index.toNat).take (e - m.index).toNat
      if m.valueMappings.isEmpty then some slice
      else
        some (match m.valueMappings.find? (fun vm => vm.key == slice) with
              | some vm => vm.value
              | none => [])

/-- A Go channel: a capacity and a FIFO buffer.  An unbuffered channel has
capacity 0 and, with no concurrent receiver, can never accept a send. -/
structure Chan (α : Type) where
  cap : Nat
  buf : List α
deriving DecidableEq

/-- Non-blocking send (`select { case ch <- v: ... default: ... }` with no
concurrent receiver): succeeds exactly when the buffer has a free slot. -/
def trySend {α : Type} (c : Chan α) (v : α) : Option (Chan α) :=
  if c.buf.length < c.cap then some ⟨c.cap, c.buf ++ [v]⟩ else none

/-- Non-blocking receive (`select { case x := <-ch: ... default: ... }`
with no concurrent sender): yields the oldest buffered element. -/
def tryRecv {α : Type} (c : Chan α) : Option (α × Chan α) :=
  match c.buf with
  | [] => none
  | x :: rest => some (x, ⟨c.cap, rest⟩)

/-- `Service.tryEvictOldestStatus` (processor.go): on an unbuffered status
channel it warns and returns `false`; otherwise it returns `false` when
shutdown is signalled, and `true` after removing at most one buffered
entry (observing an empty channel is the benign race of the source: return
`true` and let the caller retry the send). -/
def tryEvictOldestStatus (shutdown : Bool) (c : Chan CatStatus) :
    Bool × Chan CatStatus :=
  if c.cap = 0 then (false, c)
  else if shutdown then (false, c)
  else
    match tryRecv c with
    | some (_, c') => (true, c')
    | none => (true, c)

/-- `Service.sendStatusWithEviction` (processor.go): loop until shutdown
(`some (false, _)`), a successful send (`some (true, _)`), or an eviction
failure (`some (false, _)`); `none` means the fuel ran out. -/
def sendStatusWithEviction (shutdown : Bool) (c : Chan CatStatus)
    (status : CatStatus) : Nat → Option (Bool × Chan CatStatus)
  | 0 => none
  | fuel + 1 =>
    if shutdown then some (false, c)
    else
      match trySend c status with
      | some c' => some (true, c')
      | none =>
        match tryEvictOldestStatus shutdown c with
        | (false, c') => some (false, c')
        | (true, c') => sendStatusWithEviction shutdown c' status fuel

/-- How a run of the processor worker ended: `terminated` means the Go
function returned; `idle` means it is blocked waiting for further input on
the processing channel. -/
inductive ProcResult
  | terminated
  | idle
deriving DecidableEq

/-- `Service.lineProcessor` (processor.go), run sequentially over the lines
queued on the processing channel: a line without markers is skipped; the
others are extracted and published through `sendStatusWithEviction`, and a
`false` publication outcome makes the worker return.  The result carries
how the worker ended, the lines it left unprocessed, and the final status
channel. -/
def lineProcessorRun (shutdown : Bool) :
    List CatState → Chan CatStatus → Nat →
    Option (ProcResult × List CatState × Chan CatStatus)
  | _, _, 0 => none
  | q, c, fuel + 1 =>
    if shutdown then some (.terminated, q, c)
    else
      match q with
      | [] => some (.idle, [], c)
      | st :: rest =>
        if st.markers = [] then lineProcessorRun shutdown rest c fuel
        else
          match sendStatusWithEviction shutdown c
              (extractStatus st.data st.markers) (c.buf.length + 2) with
          | none => none
          | some (true, c') => lineProcessorRun shutdown rest c' fuel
          | some (false, c') => some (.terminated, rest, c')

/-- The prefix-table of the service: normalized prefix → state definition
(`Service.supportedCatStates`). -/
abbrev StateTable := List (GoStr × CatState)

/-- The descending probe loop of `Service.lookupCatState` (listener.go):
for `l` from the probe length down to 2, trim the first `l` characters of
the upper-cased probe slice; skip an empty key, and on the first table hit
return the state with `data` set to the line payload after the matched
prefix, together with the matched length. -/
def lookupFrom (tbl : StateTable) (line probe : GoStr) :
    Nat → Option (CatState × Nat)
  | 0 => none
  | 1 => none
  | n + 2 =>
    let key := goTrimSpace (probe.take (n + 2))
    if key = [] then lookupFrom tbl line probe (n + 1)
    else
      match assocGet tbl key with
      | some st => some ({ st with data := line.drop (n + 2) }, n + 2)
      | none => lookupFrom tbl line probe (n + 1)

/-- `Service.lookupCatState` (listener.go): reject lines shorter than the
minimum prefix length 2, clamp the probe length to the line length and
floor it to 2, upper-case the probe slice once, then probe longest-first.
Returns the matched state (with `data` holding the payload after the
prefix) and the matched prefix length. -/
def lookupCatState (tbl : StateTable) (maxCatPrefixLen : Nat) (line : GoStr) :
    Option (CatState × Nat) :=
  if line.length < 2 then none
  else
    let maxLen0 := if maxCatPrefixLen > line.length then line.length
                   else maxCatPrefixLen
    let maxLen := if maxLen0 < 2 then 2 else maxLen0
    lookupFrom tbl line (goToUpper (line.take maxLen)) maxLen

/-- The candidate prefix lengths the specification describes: from the
probe length down to the minimum prefix length 2. -/
def candidateLens : Nat → List Nat
  | 0 => []
  | 1 => []
  | n + 2 => (n + 2) :: candidateLens (n + 1)

/-- One candidate test as the specification words it: trim whitespace from
the first `l` characters of the probe slice and test table membership. -/
def lookupStep (tbl : StateTable) (probe : GoStr) (l : Nat) :
    Option (CatState × Nat) :=
  let key := goTrimSpace (probe.take l)
  if key = [] then none
  else
    match assocGet tbl key with
    | some st => some (st, l)
    | none => none

/-- Prefix lookup as the specification words it: probe lengths from
`probeLen = min(maxPrefixLength, len(line))` floored to 2, down to 2; the
first (longest) hit wins, and the payload after the matched prefix becomes
the matched line's data. -/
def lookupSpec (tbl : StateTable) (maxCatPrefixLen : Nat) (line : GoStr) :
    Option (CatState × Nat) :=
  if line.length < 2 then none
  else
    let probeL := max (min maxCatPrefixLen line.length) 2
    match (candidateLens probeL).findSome?
        (lookupStep tbl (goToUpper (line.take probeL))) with
    | some (st, l) => some ({ st with data := line.drop l }, l)
    | none => none

/-- The errors `Service.Initialize` can surface, one per failing stage. -/
inductive InitErr
  | nilConfigService
  | nilLoggerService
  | requiredConfigsFailed
  | invalidRigID
  | rigConfigLookupFailed
  | invalidConfig
  | emptyStatePrefix
deriving DecidableEq

/-- The slice of `types.RigConfig` the service reads. -/
structure RigConfig where
  catStates : List CatState
  catCommands : List CatCommand
  listenerRateLimiterInterval : Int
  listenerReadTimeoutMS : Int
  serialReadTimeoutMS : Int
  sendChannelSize : Nat
  processingChannelSize : Nat
deriving DecidableEq

/-- `types.RequiredConfigs`, as far as the service reads it. -/
structure RequiredConfigs where
  defaultRigID : Int
deriving DecidableEq

/-- The collaborators `Service.Initialize` consults, as oracles:
presence of the two injected services, the configuration service's
`RequiredConfigs` and `RigConfigByID` answers, and the structural
validator's verdict. -/
structure InitEnv where
  hasConfigService : Bool
  hasLoggerService : Bool
  requiredConfigs : Option RequiredConfigs
  rigConfigById : Int → Option RigConfig
  validConfig : RigConfig → Bool

/-- `Service.getRigConfig` (internal.go): fetch the required configs, fail
on a default rig id below 1, then fetch that rig's configuration. -/
def getRigConfig (env : InitEnv) : Except InitErr RigConfig :=
  match env.requiredConfigs with
  | none => .error .requiredConfigsFailed
  | some rc =>
    if rc.defaultRigID < 1 then .error .invalidRigID
    else
      match env.rigConfigById rc.defaultRigID with
      | none => .error .rigConfigLookupFailed
      | some cfg => .ok cfg

/-- Modelled from the spec: the error-returning `initializeStateSet` that
`Initialize` calls (`if initErr = s.initializeStateSet(); initErr != nil`)
is not among the source files — src/internal.go holds a stale void variant
that silently skips blank prefixes.  Per the spec's invariant ("`prefix`,
after trimming whitespace and upper-casing, must be non-empty — a blank
prefix is a fatal configuration error at initialization") and the test
expecting the error "CAT state entry has an empty prefix", this model
normalizes each prefix, fails with `emptyStatePrefix` on a blank one, and
otherwise records the entry (later duplicates overwriting earlier ones)
while tracking the maximum key length. -/
def initializeStateSet : List CatState → StateTable → Nat →
    Except InitErr (StateTable × Nat)
  | [], tbl, maxLen => .ok (tbl, maxLen)
  | st :: rest, tbl, maxLen =>
    let key := goToUpper (goTrimSpace st.pfx)
    if key = [] then .error .emptyStatePrefix
    else initializeStateSet rest (assocSet tbl key st) (max maxLen key.length)

/-- `initializeStateSet` run from the empty table. -/
def initializeStateSetRun (states : List CatState) :
    Except InitErr (StateTable × Nat) :=
  initializeStateSet states [] 0

/-- What a successful `Initialize` body leaves behind: the defaulted
configuration, the prefix table with its maximum key length, and the
capacities of the three freshly allocated channels (the status channel is
hard-wired to capacity 1). -/
structure InitResult where
  config : RigConfig
  table : StateTable
  maxCatPrefixLen : Nat
  statusChanCap : Nat
  sendChanCap : Nat
  processingChanCap : Nat
deriving DecidableEq

/-- The body of `Service.Initialize` (the closure passed to
`s.initOnce.Do`): dependency checks, rig-config resolution, structural
validation, timing defaults, state-set construction, channel allocation. -/
def initBody (env : InitEnv) : Except InitErr InitResult :=
  if env.hasConfigService = false then .error .nilConfigService
  else if env.hasLoggerService = false then .error .nilLoggerService
  else
    match getRigConfig env with
    | .error e => .error e
    | .ok cfg0 =>
      if env.validConfig cfg0 = false then .error .invalidConfig
      else
        let cfg := { cfg0 with
          listenerRateLimiterInterval :=
            if cfg0.listenerRateLimiterInterval ≤ 0 then 250
            else cfg0.listenerRateLimiterInterval,
          listenerReadTimeoutMS :=
            if cfg0.listenerReadTimeoutMS ≤ 0 then cfg0.serialReadTimeoutMS
            else cfg0.listenerReadTimeoutMS }
        match initializeStateSetRun cfg.catStates with
        | .error e => .error e
        | .ok (tbl, maxLen) =>
          .ok { config := cfg, table := tbl, maxCatPrefixLen := maxLen,
                statusChanCap := 1, sendChanCap := cfg.sendChannelSize,
                processingChanCap := cfg.processingChannelSize }

/-- The `sync.Once`-guarded initialization state of the service, with a
ghost counter of how many times the body actually ran. -/
structure InitOnceState where
  onceDone : Bool
  initialized : Bool
  result : Option InitResult
  bodyRuns : Nat
deriving DecidableEq

/-- A service on which `Initialize` has never been called. -/
def freshInitState : InitOnceState := ⟨false, false, none, 0⟩

/-- `Service.Initialize`: `var initErr error` is a fresh local of each
call, and `s.initOnce.Do` runs the body only on the first ever call — on
every later call the closure is skipped and the still-nil local is
returned. -/
def initializeService (env : InitEnv) (s : InitOnceState) :
    Option InitErr × InitOnceState :=
  if s.onceDone then (none, s)
  else
    match initBody env with
    | .error e =>
      (some e, { s with onceDone := true, bodyRuns := s.bodyRuns + 1 })
    | .ok r =>
      (none, { s with onceDone := true, initialized := true,
                      result := some r, bodyRuns := s.bodyRuns + 1 })

/-- A sequence of `n` consecutive `Initialize` calls: the list of their
outcomes and the final state. -/
def initCalls (env : InitEnv) (s : InitOnceState) :
    Nat → List (Option InitErr) × InitOnceState
  | 0 => ([], s)
  | n + 1 =>
    let r := initializeService env s
    let rest := initCalls env r.2 n
    (r.1 :: rest.1, rest.2)

/-- The outcome the first `Initialize` call reports: the body's error, or
success. -/
def initFirstOutcome (env : InitEnv) : Option InitErr :=
  match initBody env with
  | .error e => some e
  | .ok _ => none

/-- The lifecycle state `Start`/`Stop` manipulate, with ghost counters of
cumulative serial-port opens and worker launches. -/
structure LifeState where
  initialized : Bool
  started : Bool
  portOpen : Bool
  portOpens : Nat
  workerLaunches : Nat
deriving DecidableEq

/-- The errors `Start` and `Stop` can surface. -/
inductive StartStopErr
  | notInitialized
  | portOpenFailed
  | portCloseFailed
deriving DecidableEq

/-- `Service.Start`: fail when not initialized; return nil unchanged when
already started (the idempotent no-op branch); otherwise open the serial
port (the oracle `portOpenOk` decides whether `serial.Open` succeeds),
launch the three workers of a fresh run, and mark the service started. -/
def startService (portOpenOk : Bool) (s : LifeState) :
    Option StartStopErr × LifeState :=
  if s.initialized = false then (some .notInitialized, s)
  else if s.started = true then (none, s)
  else if portOpenOk = false then (some .portOpenFailed, s)
  else
    (none, { s with portOpen := true, portOpens := s.portOpens + 1,
                    workerLaunches := s.workerLaunches + 3, started := true })

/-- `Service.Stop`: fail when not initialized; return nil unchanged when
not started (the idempotent no-op branch); otherwise close the shutdown
channel, join the workers, and close the serial port — a close failure
(oracle `portCloseOk`) is surfaced and leaves the service marked started,
exactly as the source returns before clearing its flags. -/
def stopService (portCloseOk : Bool) (s : LifeState) :
    Option StartStopErr × LifeState :=
  if s.initialized = false then (some .notInitialized, s)
  else if s.started = false then (none, s)
  else if s.portOpen = true ∧ portCloseOk = false then
    (some .portCloseFailed, s)
  else (none, { s with portOpen := false, started := false })

/-- The errors `Service.EnqueueCommand` can surface. -/
inductive EnqErr
  | notInitialized
  | notStarted
  | commandNotFound
  | arityMismatch
  | queueFull
  | queueClosed
deriving DecidableEq

/-- `Service.commandLookup` (internal.go): first configured command with
the requested name. -/
def commandLookup (cmds : List CatCommand) (name : GoStr) :
    Option CatCommand :=
  cmds.find? (fun c => c.name == name)

/-- `Service.validateCommandFormat` (internal.go): the number of `%s`
placeholders in the template must equal the number of parameters. -/
def validateCommandFormat (command : GoStr) (nparams : Nat) : Bool :=
  goCount command (str "%s") == nparams

/-- `Service.EnqueueCommand`: gate on the initialized and started flags,
look the command up, validate the parameter arity against the template,
substitute the parameters, and make a non-blocking offer onto the send
queue (`none` models a nil send channel).  Returns the outcome and the
send queue afterwards — unchanged on every failure. -/
def enqueueCommand (initialized started : Bool) (cmds : List CatCommand)
    (sendChannel : Option (Chan CatCommand)) (name : GoStr)
    (params : List GoStr) : Option EnqErr × Option (Chan CatCommand) :=
  if initialized = false then (some .notInitialized, sendChannel)
  else if started = false then (some .notStarted, sendChannel)
  else
    match commandLookup cmds name with
    | none => (some .commandNotFound, sendChannel)
    | some catCmd =>
      if validateCommandFormat catCmd.cmd params.length = false then
        (some .arityMismatch, sendChannel)
      else
        let formatted : CatCommand :=
          { catCmd with cmd := goSprintfS catCmd.cmd params }
        match sendChannel with
        | some ch =>
          match trySend ch formatted with
          | some ch' => (none, some ch')
          | none => (some .queueFull, some ch)
        | none => (some .queueClosed, none)

/-- The "AB" state definition of the longest-prefix example. -/
def stAB : CatState := ⟨str "AB", [], []⟩

/-- The "ABCD" state definition of the longest-prefix example. -/
def stABCD : CatState := ⟨str "ABCD", [], []⟩

/-- The prefix table holding both "AB" and "ABCD". -/
def tblAB : StateTable := [(str "AB", stAB), (str "ABCD", stABCD)]

/-- A line whose markers are non-empty, for concrete worker runs. -/
def stWork : CatState := ⟨str "AB", [⟨0, 1, str "t", []⟩], str "x"⟩

/-- A second queued line, left behind when the worker terminates early. -/
def stNext : CatState := ⟨str "AB", [⟨0, 1, str "u", []⟩], str "y"⟩

/-- The environment of a service constructed with a nil configuration
service, whose first `Initialize` call therefore fails. -/
def envNilConfig : InitEnv :=
  ⟨false, false, none, fun _ => none, fun _ => false⟩

/-- A rig configuration holding one state definition whose prefix is
whitespace-only, hence blank after normalization. -/
def cfgBlank : RigConfig := ⟨[⟨str " ", [], []⟩], [], 1, 1, 1, 1, 1⟩

/-- An environment whose collaborators are all present and succeed, and
whose resolved rig configuration is `cfgBlank`. -/
def envBlank : InitEnv :=
  ⟨true, true, some ⟨1⟩, fun _ => some cfgBlank, fun _ => true⟩

/-- The command table of the arity example: `INIT ↦ "CMD %s %s"`. -/
def initCmdTable : List CatCommand := [⟨str "INIT", str "CMD %s %s"⟩]

theorem applyMarker_eq_spec (data : GoStr) (status : CatStatus) (m : Marker) :
    applyMarker data status m =
      match markerEvalSpec data m with
      | none => status
      | some v => assocSet status m.tag v := by
  unfold applyMarker markerEvalSpec
  have he : (if m.index + m.length > (data.length : Int) then (data.length : Int)
      else m.index + m.length) = min (m.index + m.length) (data.length : Int) := by
    rw [Int.min_def]; split_ifs <;> omega
  rw [he]
  by_cases h1 : m.index < 0 ∨ m.index ≥ (data.length : Int)
  · simp [h1]
  · simp only [h1, if_false]
    by_cases h2 : m.index ≥ min (m.index + m.length) (data.length : Int)
    · simp [h2]
    · simp only [h2, if_false]
      by_cases h3 : m.valueMappings.isEmpty
      · simp [h3]
      · simp only [h3, if_false]
        cases m.valueMappings.find? (fun vm => vm.key ==
            (data.drop m.index.toNat).take
              ((min (m.index + m.length) (data.length : Int)) - m.index).toNat) <;>
          simp

theorem extractStatus_eq_spec (data : GoStr) (markers : List Marker) :
    extractStatus data markers =
      markers.foldl
        (fun st m =>
          match markerEvalSpec data m with
          | none => st
          | some v => assocSet st m.tag v) [] := by
  unfold extractStatus
  have H : ∀ (ms : List Marker) (init : CatStatus),
      ms.foldl (applyMarker data) init =
        ms.foldl
          (fun st m =>
            match markerEvalSpec data m with
            | none => st
            | some v => assocSet st m.tag v) init := by
    intro ms
    induction ms with
    | nil => intro init; rfl
    | cons m rest ih =>
      intro init
      simp only [List.foldl_cons, applyMarker_eq_spec, ih]
  exact H markers []

theorem lookupFrom_findSome (tbl : StateTable) (line probe : GoStr) :
    ∀ n, lookupFrom tbl line probe n =
      match (candidateLens n).findSome? (lookupStep tbl probe) with
      | some (st, l) => some ({ st with data := line.drop l }, l)
      | none => none := by
  intro n
  induction n using Nat.strong_induction_on with
  | _ n ih =>
    match n with
    | 0 => rfl
    | 1 => rfl
    | (k + 2) =>
      simp only [lookupFrom, candidateLens, List.findSome?, lookupStep]
      by_cases hk : goTrimSpace (probe.take (k + 2)) = []
      · simp only [hk, if_pos rfl, ite_true]
        exact ih (k + 1) (by omega)
      · simp only [hk, ite_false]
        cases hg : assocGet tbl (goTrimSpace (probe.take (k + 2))) with
        | some st => simp
        | none => simpa using ih (k + 1) (by omega)

theorem lookupFrom_data (tbl : StateTable) (line probe : GoStr) :
    ∀ n st l, lookupFrom tbl line probe n = some (st, l) →
      st.data = line.drop l := by
  intro n
  induction n using Nat.strong_induction_on with
  | _ n ih =>
    match n with
    | 0 => intro st l h; simp [lookupFrom] at h
    | 1 => intro st l h; simp [lookupFrom] at h
    | (k + 2) =>
      intro st l h
      simp only [lookupFrom] at h
      by_cases hk : goTrimSpace (probe.take (k + 2)) = []
      · rw [if_pos hk] at h
        exact ih (k + 1) (by omega) st l h
      · rw [if_neg hk] at h
        cases hg : assocGet tbl (goTrimSpace (probe.take (k + 2))) with
        | some st0 =>
          rw [hg] at h
          simp only [Option.some.injEq, Prod.mk.injEq] at h
          obtain ⟨h1, h2⟩ := h
          subst h1
          subst h2
          rfl
        | none =>
          rw [hg] at h
          exact ih (k + 1) (by omega) st l h

theorem initCalls_after_done (env : InitEnv) :
    ∀ (n : Nat) (s : InitOnceState), s.onceDone = true →
      initCalls env s n = (List.replicate n none, s) := by
  intro n
  induction n with
  | zero => intro s h; rfl
  | succ k ih =>
    intro s h
    simp [initCalls, initializeService, h, ih s h, List.replicate]

theorem initializeStateSet_blank_mem (st : CatState)
    (hkey : goToUpper (goTrimSpace st.pfx) = []) :
    ∀ (states : List CatState) (tbl : StateTable) (ml : Nat),
      st ∈ states →
      initializeStateSet states tbl ml = .error .emptyStatePrefix := by
  intro states
  induction states with
  | nil => intro tbl ml h; cases h
  | cons a rest ih =>
    intro tbl ml h
    simp only [initializeStateSet]
    by_cases ha : goToUpper (goTrimSpace a.pfx) = []
    · rw [if_pos ha]
    · rw [if_neg ha]
      rcases List.mem_cons.mp h with rfl | h'
      · exact absurd hkey ha
      · exact ih _ _ h'

/-- Claim C4: the snapshot of a matched line is built by evaluating each
marker in order — an index outside `[0, len(data))` contributes no entry;
otherwise `end = min(index+length, len(data))`, an empty range contributes
no entry, and the slice `data[index:end]` is stored raw (no mappings) or
through the first matching value mapping (empty string when none matches).
Over `data = "12345"`: `{index:2, length:3}` yields `"345"`,
`{index:4, length:10}` clamps to `"5"`, and `{index:10, length:1}` leaves
no entry for its tag. -/
theorem claim_C4 :
    (∀ (data : GoStr) (status : CatStatus) (m : Marker),
        applyMarker data status m =
          match markerEvalSpec data m with
          | none => status
          | some v => assocSet status m.tag v) ∧
    (∀ (data : GoStr) (markers : List Marker),
        extractStatus data markers =
          markers.foldl
            (fun st m =>
              match markerEvalSpec data m with
              | none => st
              | some v => assocSet st m.tag v) []) ∧
    extractStatus (str "12345") [⟨2, 3, str "a", []⟩] =
      [(str "a", str "345")] ∧
    extractStatus (str "12345") [⟨4, 10, str "b", []⟩] =
      [(str "b", str "5")] ∧
    extractStatus (str "12345") [⟨10, 1, str "c", []⟩] = [] ∧
    assocGet (extractStatus (str "12345") [⟨10, 1, str "c", []⟩])
      (str "c") = none :=
  ⟨applyMarker_eq_spec, extractStatus_eq_spec,
   by decide, by decide, by decide, by decide⟩

/-- Claim C5: on the capacity-1 status mailbox with no concurrent consumer
and no shutdown, publishing snapshot `a` and then snapshot `b` leaves
exactly `b` in the mailbox — the publish of `b` evicts the single stale
entry `a` and then succeeds within one retry — so a single subsequent
receive yields `b`, never `a`, and the mailbox never holds both. -/
theorem claim_C5 (a b : CatStatus) (fuel : Nat) :
    sendStatusWithEviction false ⟨1, []⟩ a (fuel + 1) =
      some (true, ⟨1, [a]⟩) ∧
    sendStatusWithEviction false ⟨1, [a]⟩ b (fuel + 2) =
      some (true, ⟨1, [b]⟩) ∧
    tryRecv (⟨1, [b]⟩ : Chan CatStatus) = some (b, ⟨1, []⟩) :=
  ⟨rfl, rfl, rfl⟩

/-- Claim C9: on an unbuffered (capacity-0) status mailbox with no reader,
a publish attempt returns after a single iteration for any fuel (it never
blocks), reports no error to any caller of the service (the `false` flag is
the worker's internal shutdown signal, not a surfaced error), drops the new
snapshot, and leaves the mailbox unchanged. -/
theorem claim_C9 (c : Chan CatStatus) (v : CatStatus) (fuel : Nat)
    (hcap : c.cap = 0) :
    sendStatusWithEviction false c v (fuel + 1) = some (false, c) := by
  simp [sendStatusWithEviction, trySend, tryEvictOldestStatus, hcap]

/-- Witness for C9 at the concrete empty capacity-0 mailbox. -/
theorem claim_C9_witness :
    sendStatusWithEviction false ⟨0, []⟩ [] 1 = some (false, ⟨0, []⟩) :=
  claim_C9 ⟨0, []⟩ [] 0 rfl

/-- Claim C10: with a capacity-0 status mailbox, the first publication
attempt terminates the processor worker for the run: `tryEvictOldestStatus`
returns `false` even though shutdown was not signalled, 
`sendStatusWithEviction` propagates the `false`, and `lineProcessorRun`
treats it as shutdown and returns — every line queued behind the first one
is left unprocessed and nothing is ever published. -/
theorem claim_C10 (st : CatState) (rest : List CatState) (fuel : Nat)
    (h : st.markers ≠ []) :
    tryEvictOldestStatus false ⟨0, []⟩ = (false, ⟨0, []⟩) ∧
    sendStatusWithEviction false ⟨0, []⟩ (extractStatus st.data st.markers)
      (fuel + 1) = some (false, ⟨0, []⟩) ∧
    lineProcessorRun false (st :: rest) ⟨0, []⟩ (fuel + 1) =
      some (.terminated, rest, ⟨0, []⟩) := by
  refine ⟨rfl, rfl, ?_⟩
  simp [lineProcessorRun, h, sendStatusWithEviction, trySend,
    tryEvictOldestStatus]

/-- Witness for C10: a concrete one-marker line followed by a second
queued line; the worker terminates and the second line survives unread. -/
theorem claim_C10_witness :
    tryEvictOldestStatus false ⟨0, []⟩ = (false, ⟨0, []⟩) ∧
    sendStatusWithEviction false ⟨0, []⟩
      (extractStatus stWork.data stWork.markers) 1 =
      some (false, ⟨0, []⟩) ∧
    lineProcessorRun false (stWork :: [stNext]) ⟨0, []⟩ 1 =
      some (.terminated, [stNext], ⟨0, []⟩) :=
  claim_C10 stWork [stNext] 0 (by decide)

/-- Claim C6: against the table mapping `INIT` to the template
`"CMD %s %s"`, on an initialized and started service,
`EnqueueCommand("INIT", "one", "two")` succeeds and enqueues the formatted
command `"CMD one two"` onto the send queue, while one or three parameters
fail with the arity-mismatch error and enqueue nothing (the queue is
unchanged). -/
theorem claim_C6 :
    enqueueCommand true true initCmdTable (some ⟨1, []⟩) (str "INIT")
      [str "one", str "two"] =
      (none, some ⟨1, [⟨str "INIT", str "CMD one two"⟩]⟩) ∧
    enqueueCommand true true initCmdTable (some ⟨1, []⟩) (str "INIT")
      [str "one"] =
      (some .arityMismatch, some ⟨1, []⟩) ∧
    enqueueCommand true true initCmdTable (some ⟨1, []⟩) (str "INIT")
      [str "one", str "two", str "three"] =
      (some .arityMismatch, some ⟨1, []⟩) := by
  refine ⟨by decide, by decide, by decide⟩

/-- Claim C3: on an initialized service, `Start` while already running
returns success with the state unchanged — no second worker set is
launched and the serial port is not re-opened (the cumulative counters do
not move) — and `Stop` while not running returns success with the state
unchanged; both are idempotent no-ops, not errors. -/
theorem claim_C3 (s : LifeState) (ok : Bool) :
    (s.initialized = true → s.started = true →
      startService ok s = (none, s)) ∧
    (s.initialized = true → s.started = false →
      stopService ok s = (none, s)) := by
  constructor
  · intro h1 h2
    simp [startService, h1, h2]
  · intro h1 h2
    simp [stopService, h1, h2]

/-- Witness for C3 at concrete lifecycle states: a running service started
once, and an initialized service that is not running (the close oracle is
even set to fail, showing `Stop` never touches the port on this path). -/
theorem claim_C3_witness :
    startService true ⟨true, true, true, 1, 3⟩ =
      (none, ⟨true, true, true, 1, 3⟩) ∧
    stopService false ⟨true, false, false, 1, 3⟩ =
      (none, ⟨true, false, false, 1, 3⟩) :=
  ⟨(claim_C3 ⟨true, true, true, 1, 3⟩ true).1 rfl rfl,
   (claim_C3 ⟨true, false, false, 1, 3⟩ false).2 rfl rfl⟩

/-- Claim C7: prefix lookup prefers the longest registered prefix.  In
general `lookupCatState` coincides with the specification's description —
candidate lengths probed from `probeLen = min(maxPrefixLength, len(line))`
floored to 2 down to 2, each candidate trimmed of whitespace before the
table membership test, the first (longest) hit winning — and concretely,
with both "AB" and "ABCD" registered, "ABCDxyz" matches the "ABCD"
definition and "ABxyz" matches the "AB" definition. -/
theorem claim_C7 :
    (∀ (tbl : StateTable) (maxPfxLen : Nat) (line : GoStr),
        lookupCatState tbl maxPfxLen line = lookupSpec tbl maxPfxLen line) ∧
    initializeStateSetRun [stAB, stABCD] = .ok (tblAB, 4) ∧
    lookupCatState tblAB 4 (str "ABCDxyz") =
      some ({ stABCD with data := str "xyz" }, 4) ∧
    lookupCatState tblAB 4 (str "ABxyz") =
      some ({ stAB with data := str "xyz" }, 2) := by
  refine ⟨?_, rfl, by decide, by decide⟩
  intro tbl maxPfxLen line
  simp only [lookupCatState, lookupSpec]
  by_cases hl : line.length < 2
  · simp [hl]
  · simp only [hl, if_false]
    have hpl :
        (if (if maxPfxLen > line.length then line.length else maxPfxLen) < 2
          then 2
          else if maxPfxLen > line.length then line.length else maxPfxLen) =
          max (min maxPfxLen line.length) 2 := by
      split_ifs <;> omega
    rw [hpl]
    exact lookupFrom_findSome tbl line
      (goToUpper (line.take (max (min maxPfxLen line.length) 2)))
      (max (min maxPfxLen line.length) 2)

/-- Claim C8: whenever lookup matches an input line at prefix length `l`,
the matched line's `data` field is exactly the suffix of the line after
the matched prefix — `line[l:]`, not the full line. -/
theorem claim_C8 (tbl : StateTable) (maxPfxLen : Nat) (line : GoStr)
    (st : CatState) (l : Nat)
    (h : lookupCatState tbl maxPfxLen line = some (st, l)) :
    st.data = line.drop l := by
  simp only [lookupCatState] at h
  by_cases hl : line.length < 2
  · rw [if_pos hl] at h
    cases h
  · rw [if_neg hl] at h
    exact lookupFrom_data _ _ _ _ _ _ h

/-- Witness for C8 at the concrete match of "ABxyz" against the "AB"
definition: the stored payload is `"xyz" = "ABxyz"[2:]`. -/
theorem claim_C8_witness :
    ({ stAB with data := str "xyz" } : CatState).data =
      (str "ABxyz").drop 2 :=
  claim_C8 tblAB 4 (str "ABxyz") { stAB with data := str "xyz" } 2
    (by decide)

/-- Claim C1 as stated is false on the code: `Initialize` keeps its error
in a call-local variable, so after a failed first call (here: nil
configuration service) the `sync.Once` is already consumed and the second
call returns success instead of the original error. -/
theorem claim_C1_counterexample :
    (initializeService envNilConfig freshInitState).1 =
      some InitErr.nilConfigService ∧
    (initializeService envNilConfig
        (initializeService envNilConfig freshInitState).2).1 = none ∧
    (initializeService envNilConfig
        (initializeService envNilConfig freshInitState).2).1 ≠
      some InitErr.nilConfigService ∧
    (initializeService envNilConfig
        (initializeService envNilConfig freshInitState).2).2.bodyRuns = 1 :=
  ⟨rfl, rfl, by decide, rfl⟩

/-- Claim C1, amended: `Initialize` executes its body at most once across
any sequence of calls (the ghost counter ends at 1); the first call
returns the body's outcome, and every later call returns success (nil)
without re-executing — so a first-call error is observed only by the first
caller, not repeated to subsequent ones. -/
theorem claim_C1 (env : InitEnv) (n : Nat) :
    (initCalls env freshInitState (n + 1)).1 =
      initFirstOutcome env :: List.replicate n none ∧
    (initCalls env freshInitState (n + 1)).2.bodyRuns = 1 := by
  cases hb : initBody env with
  | error e =>
    have h1 : initializeService env freshInitState =
        (some e, ⟨true, false, none, 1⟩) := by
      simp [initializeService, freshInitState, hb]
    have h2 := initCalls_after_done env n ⟨true, false, none, 1⟩ rfl
    constructor
    · simp [initCalls, h1, h2, initFirstOutcome, hb]
    · simp [initCalls, h1, h2]
  | ok r =>
    have h1 : initializeService env freshInitState =
        (none, ⟨true, true, some r, 1⟩) := by
      simp [initializeService, freshInitState, hb]
    have h2 := initCalls_after_done env n ⟨true, true, some r, 1⟩ rfl
    constructor
    · simp [initCalls, h1, h2, initFirstOutcome, hb]
    · simp [initCalls, h1, h2]

/-- Claim C2: for every configuration reached by `Initialize` (both
collaborators present, the rig configuration resolved, the structural
validation passed) that contains at least one state definition whose
prefix is blank after trimming and upper-casing, `Initialize` fails with
the empty-state-prefix error rather than silently skipping the entry. -/
theorem claim_C2 (env : InitEnv) (cfg : RigConfig) (st : CatState)
    (h1 : env.hasConfigService = true) (h2 : env.hasLoggerService = true)
    (h3 : getRigConfig env = .ok cfg) (h4 : env.validConfig cfg = true)
    (hmem : st ∈ cfg.catStates)
    (hkey : goToUpper (goTrimSpace st.pfx) = []) :
    (initializeService env freshInitState).1 =
      some InitErr.emptyStatePrefix := by
  have hss : initializeStateSet cfg.catStates [] 0 =
      .error .emptyStatePrefix :=
    initializeStateSet_blank_mem st hkey cfg.catStates [] 0 hmem
  have hbody : initBody env = .error .emptyStatePrefix := by
    simp [initBody, h1, h2, h3, h4, initializeStateSetRun, hss]
  simp [initializeService, freshInitState, hbody]

/-- Witness for C2: a fully healthy environment whose rig configuration
contains one whitespace-only prefix. -/
theorem claim_C2_witness :
    (initializeService envBlank freshInitState).1 =
      some InitErr.emptyStatePrefix :=
  claim_C2 envBlank cfgBlank ⟨str " ", [], []⟩ rfl rfl rfl rfl
    (by decide) (by decide)
